import Mathlib

/-!
Verification of the ROOcode orchestration core (src/orchestrator.py,
src/models/model_registry.py, src/models/model_selector.py).

The Python classes are shallowly embedded as pure Lean functions:

* Python dicts become association lists over String keys (lookup reads the
  first binding, assignment replaces the first binding or appends, deletion
  removes the first binding; insertion order is preserved, as in CPython).
* The asyncio Queues inside TaskQueue become plain FIFO lists.
* Methods that may raise become functions into Except String.
* Timestamp fields (created_at, updated_at) carry no logic and are omitted.
* Float capability scores and costs become exact rationals.
-/

namespace ROOcode

/-- Association-list model of a Python dict with string keys. Lookup returns
the value of the first binding for the key. -/
def dlookup {α : Type} : List (String × α) → String → Option α
  | [], _ => none
  | (k', v) :: rest, k => if k' = k then some v else dlookup rest k

/-- Dict assignment: replace the first binding for the key, or append a new
binding at the end (Python dicts keep insertion order). -/
def dinsert {α : Type} : List (String × α) → String → α → List (String × α)
  | [], k, v => [(k, v)]
  | (k', v') :: rest, k, v =>
    if k' = k then (k, v) :: rest else (k', v') :: dinsert rest k v

/-- Dict deletion: remove the first binding for the key (identity when the
key is absent, matching the guarded `del` in the source). -/
def derase {α : Type} : List (String × α) → String → List (String × α)
  | [], _ => []
  | (k', v') :: rest, k => if k' = k then rest else (k', v') :: derase rest k

/-- Dict membership test (`k in d`). -/
def dmem {α : Type} (d : List (String × α)) (k : String) : Bool :=
  (dlookup d k).isSome

/-- Priority levels of the ROOcode system (`class Priority(Enum)`). -/
inductive Priority
  | high
  | medium
  | low
deriving DecidableEq

/-- Task statuses (`class TaskStatus(Enum)`). -/
inductive TaskStatus
  | submitted
  | queued
  | in_progress
  | completed
  | failed
  | retrying
deriving DecidableEq

/-- Error recovery strategies (`class RecoveryStrategy(Enum)`). -/
inductive RecoveryStrategy
  | retry
  | reassign
  | decompose
  | escalate
  | rollback
deriving DecidableEq

/-- The parts of a queued `Task` message that the TaskQueue logic reads: its
id (`task.content["task_id"]`) and its priority. The opaque payload plays no
role in the queue and is omitted. -/
structure QTask where
  id : String
  priority : Priority
deriving DecidableEq

/-- `class TaskQueue`: one FIFO list per priority level plus the
`_task_lookup` dict used by `remove` (value `none` is the removal marker the
source writes as `self._task_lookup[task_id] = None`). -/
structure TaskQueue where
  high : List QTask
  medium : List QTask
  low : List QTask
  taskLookup : List (String × Option Priority)
deriving DecidableEq

def TaskQueue.emptyQ : TaskQueue := ⟨[], [], [], []⟩

/-- The per-priority sub-queue (`self._queues[priority]`). -/
def tier (q : TaskQueue) : Priority → List QTask
  | .high => q.high
  | .medium => q.medium
  | .low => q.low

/-- `TaskQueue.put`: append the task to the sub-queue of its priority and
record its priority in the lookup dict. -/
def putTask (q : TaskQueue) (t : QTask) : TaskQueue :=
  let q' :=
    match t.priority with
    | .high => { q with high := q.high ++ [t] }
    | .medium => { q with medium := q.medium ++ [t] }
    | .low => { q with low := q.low ++ [t] }
  { q' with taskLookup := dinsert q'.taskLookup t.id (some t.priority) }

/-- `TaskQueue.get`: scan the tiers HIGH, MEDIUM, LOW and pop the front of the
first non-empty one, dropping the popped id from the lookup dict; return
`none` when all tiers are empty. -/
def getTask (q : TaskQueue) : Option QTask × TaskQueue :=
  match q.high with
  | t :: rest =>
    (some t, { q with high := rest, taskLookup := derase q.taskLookup t.id })
  | [] =>
    match q.medium with
    | t :: rest =>
      (some t, { q with medium := rest, taskLookup := derase q.taskLookup t.id })
    | [] =>
      match q.low with
      | t :: rest =>
        (some t, { q with low := rest, taskLookup := derase q.taskLookup t.id })
      | [] => (none, q)

/-- `TaskQueue.remove`: return False when the id is not in the lookup dict;
otherwise mark the entry as removed (set it to `none`) and return True. The
sub-queues themselves are never touched. -/
def removeTask (q : TaskQueue) (taskId : String) : Bool × TaskQueue :=
  if dmem q.taskLookup taskId then
    (true, { q with taskLookup := dinsert q.taskLookup taskId none })
  else
    (false, q)

/-- All pending tasks in priority order: the HIGH tier, then MEDIUM, then
LOW, each in FIFO order. -/
def pendingTasks (q : TaskQueue) : List QTask := q.high ++ q.medium ++ q.low

/-- One client operation on the TaskQueue: an enqueue (`put`) or a dequeue
(`get`). -/
inductive QOp
  | put (t : QTask)
  | get

/-- Execute one queue operation, extending the list of dequeue results. -/
def stepQ (s : TaskQueue × List (Option QTask)) (op : QOp) :
    TaskQueue × List (Option QTask) :=
  match op with
  | .put t => (putTask s.1 t, s.2)
  | .get => ((getTask s.1).2, s.2 ++ [(getTask s.1).1])

/-- Run a sequence of queue operations from the empty queue, collecting the
results of the dequeues in order. -/
def runQ (ops : List QOp) : TaskQueue × List (Option QTask) :=
  ops.foldl stepQ (TaskQueue.emptyQ, [])

/-- The tasks of priority p enqueued by a sequence of operations, in order. -/
def enqueuedAt (p : Priority) : List QOp → List QTask
  | [] => []
  | .put t :: ops =>
    if t.priority = p then t :: enqueuedAt p ops else enqueuedAt p ops
  | .get :: ops => enqueuedAt p ops

/-- The tasks of priority p returned by the dequeues of a run, in order. -/
def dequeuedAt (p : Priority) : List (Option QTask) → List QTask
  | [] => []
  | some t :: outs =>
    if t.priority = p then t :: dequeuedAt p outs else dequeuedAt p outs
  | none :: outs => dequeuedAt p outs

/-- The tasks returned by draining the queue with repeated `get` calls,
bounded by a fuel parameter (the recursion terminates because every
successful `get` shortens the pending list). -/
def drainFuel : Nat → TaskQueue → List QTask
  | 0, _ => []
  | n + 1, q =>
    match getTask q with
    | (some t, q') => t :: drainFuel n q'
    | (none, _) => []

/-- All tasks a client would receive by calling `get` until the queue
reports empty. -/
def drainAll (q : TaskQueue) : List QTask := drainFuel (pendingTasks q).length q

/-- A task result payload: the result dict passed to update_task_status.
Values are modelled as strings; the status logic only reads the "status" key
and compares it with the string "completed", all other values are opaque. -/
abbrev ResultDict := List (String × String)

/-- One workflow record as stored in `WorkflowState._workflows`. The
timestamp fields carry no logic and are omitted; of the free-form metadata
dict only the "retry_count" sub-dict is modelled, the only part the core
logic reads or writes. -/
structure Workflow where
  status : TaskStatus
  subtasks : List String
  results : List (String × ResultDict)
  retryCount : List (String × Nat)
deriving DecidableEq

/-- `class WorkflowState`: the workflow ledger and the task-to-workflow
index. -/
structure WorkflowState where
  workflows : List (String × Workflow)
  taskToWorkflow : List (String × String)
deriving DecidableEq

def WorkflowState.emptyWS : WorkflowState := ⟨[], []⟩

/-- Constructor-shape test for Except results (ok versus raised error). -/
def exceptOk {ε α : Type} : Except ε α → Bool
  | .ok _ => true
  | .error _ => false

/-- `WorkflowState.create_workflow`: raises ValueError when the id already
exists, otherwise stores a fresh record with status SUBMITTED, no subtasks,
no results and an empty retry-count dict. -/
def createWorkflow (ws : WorkflowState) (workflowId : String) :
    Except String WorkflowState :=
  if dmem ws.workflows workflowId then
    .error ("Workflow " ++ workflowId ++ " already exists")
  else
    .ok { ws with workflows := dinsert ws.workflows workflowId ⟨.submitted, [], [], []⟩ }

/-- `WorkflowState.add_task_to_workflow`: raises ValueError when the
workflow id is unknown, otherwise appends the task id to the subtask list
and points the task at the workflow. -/
def addTaskToWorkflow (ws : WorkflowState) (workflowId taskId : String) :
    Except String WorkflowState :=
  match dlookup ws.workflows workflowId with
  | none => .error ("Workflow " ++ workflowId ++ " does not exist")
  | some wf =>
    .ok { workflows := dinsert ws.workflows workflowId
            { wf with subtasks := wf.subtasks ++ [taskId] },
          taskToWorkflow := dinsert ws.taskToWorkflow taskId workflowId }

/-- `WorkflowState._all_subtasks_complete`: every subtask id has a stored
result. -/
def allSubtasksComplete (wf : Workflow) : Bool :=
  wf.subtasks.all fun t => (dlookup wf.results t).isSome

/-- `WorkflowState._all_subtasks_successful`: every subtask result carries
status "completed" (a missing result reads as the empty dict). -/
def allSubtasksSuccessful (wf : Workflow) : Bool :=
  wf.subtasks.all fun t =>
    decide (dlookup ((dlookup wf.results t).getD []) "status" = some "completed")

/-- The body of `WorkflowState.update_task_status` acting on the found
workflow record: store the result only when it is truthy (a None result and
an empty dict are both falsy in the source; both are modelled by the empty
list), then recompute the aggregate status: COMPLETED or FAILED once every
subtask has a stored result, unchanged otherwise. -/
def updatedWorkflow (wf : Workflow) (taskId : String) (result : ResultDict) : Workflow :=
  let wf1 : Workflow :=
    { wf with results :=
        if result = [] then wf.results else dinsert wf.results taskId result }
  if allSubtasksComplete wf1 then
    if allSubtasksSuccessful wf1 then { wf1 with status := .completed }
    else { wf1 with status := .failed }
  else wf1

/-- `WorkflowState.update_task_status`: return silently when the task is not
associated with a workflow. The status argument is accepted and ignored,
exactly as in the source, whose body never reads it. The inner none branch
is unreachable for states built by the public operations (Python would
raise KeyError there). -/
def updateTaskStatus (ws : WorkflowState) (taskId : String) (status : TaskStatus)
    (result : ResultDict) : WorkflowState :=
  match dlookup ws.taskToWorkflow taskId with
  | none => ws
  | some workflowId =>
    match dlookup ws.workflows workflowId with
    | none => ws
    | some wf =>
      { ws with workflows :=
          dinsert ws.workflows workflowId (updatedWorkflow wf taskId result) }

/-- One client operation on the workflow tracker. The two operations that
raise (createJob on an existing id, addTask on an unknown workflow) leave
the state unchanged when they do. -/
inductive WOp
  | create (workflowId : String)
  | addT (workflowId taskId : String)
  | record (taskId : String) (status : TaskStatus) (result : ResultDict)

def stepW (ws : WorkflowState) : WOp → WorkflowState
  | .create wid =>
    match createWorkflow ws wid with
    | .ok ws' => ws'
    | .error _ => ws
  | .addT wid tid =>
    match addTaskToWorkflow ws wid tid with
    | .ok ws' => ws'
    | .error _ => ws
  | .record tid st r => updateTaskStatus ws tid st r

/-- Run a sequence of tracker operations from the empty state. -/
def runW (ops : List WOp) : WorkflowState :=
  ops.foldl stepW WorkflowState.emptyWS

/-- Every stored workflow has status SUBMITTED, COMPLETED or FAILED; in
particular the tracker never stores IN_PROGRESS. -/
def statusAllowed (ws : WorkflowState) : Prop :=
  ∀ p ∈ ws.workflows,
    p.2.status = TaskStatus.submitted ∨ p.2.status = TaskStatus.completed ∨
      p.2.status = TaskStatus.failed

/-- `Orchestrator.max_retries` (also `config` system.max_retries). -/
def maxRetries : Nat := 3

/-- The per-task retry counter read from the job metadata:
`workflow.get("metadata", {}).get("retry_count", {}).get(task_id, 0)`. -/
def retryCountOf (wf : Workflow) (taskId : String) : Nat :=
  (dlookup wf.retryCount taskId).getD 0

/-- `Orchestrator._determine_recovery_strategy`: ESCALATE when the task has
no owning workflow; otherwise DECOMPOSE once the stored retry counter has
reached max_retries, RETRY below it. The error branch mirrors the ValueError
of get_workflow_status and is unreachable for consistent states. -/
def determineRecoveryStrategy (ws : WorkflowState) (taskId : String) :
    Except String RecoveryStrategy :=
  match dlookup ws.taskToWorkflow taskId with
  | none => .ok .escalate
  | some workflowId =>
    match dlookup ws.workflows workflowId with
    | none => .error ("Workflow " ++ workflowId ++ " does not exist")
    | some wf =>
      if maxRetries ≤ retryCountOf wf taskId then .ok .decompose
      else .ok .retry

/-- `Orchestrator._apply_recovery_strategy`, restricted to its effect on the
tracker state: RETRY increments the per-task retry counter by one (and then
re-enqueues a task reconstructed from metadata — an effect on the queue,
outside this state); DECOMPOSE and ESCALATE only log; with no owning
workflow the method returns after a warning. -/
def applyRecoveryStrategy (ws : WorkflowState) (taskId : String)
    (strategy : RecoveryStrategy) : Except String WorkflowState :=
  match dlookup ws.taskToWorkflow taskId with
  | none => .ok ws
  | some workflowId =>
    match dlookup ws.workflows workflowId with
    | none => .error ("Workflow " ++ workflowId ++ " does not exist")
    | some wf =>
      match strategy with
      | .retry =>
        let wf' : Workflow :=
          { wf with retryCount := dinsert wf.retryCount taskId (retryCountOf wf taskId + 1) }
        .ok { ws with workflows := dinsert ws.workflows workflowId wf' }
      | _ => .ok ws

/-- A concrete workflow whose only task "t" already failed three times. -/
def wfThree : Workflow := ⟨.failed, ["t"], [], [("t", 3)]⟩

/-- Tracker state holding wfThree under workflow id "w". -/
def wsThree : WorkflowState := ⟨[("w", wfThree)], [("t", "w")]⟩

/-- A concrete workflow whose only task "t" failed with no retries yet. -/
def wfZero : Workflow := ⟨.failed, ["t"], [], []⟩

/-- Tracker state holding wfZero under workflow id "w". -/
def wsZero : WorkflowState := ⟨[("w", wfZero)], [("t", "w")]⟩

deriving instance DecidableEq for Except

/-- Python substring containment (`pat in hay`). -/
def containsSub (hay pat : String) : Bool :=
  decide (List.IsInfix pat.toList hay.toList)

/-- Python str.lower, applied per character (re-implemented on the char
list so that it reduces in the kernel; the inputs compared by the selector
are ASCII). -/
def lowerStr (s : String) : String := ⟨s.data.map Char.toLower⟩

/-- Whitespace test of Python str.strip (space, tab, newline, CR). -/
def isWS (c : Char) : Bool := c == ' ' || c == '\t' || c == '\n' || c == '\r'

/-- Python str.strip on a char list. -/
def trimChars (l : List Char) : List Char :=
  ((l.dropWhile isWS).reverse.dropWhile isWS).reverse

/-- Does the char list start with the given pattern. -/
def startsWith : List Char → List Char → Bool
  | _, [] => true
  | [], _ :: _ => false
  | c :: rest, p :: ps => c == p && startsWith rest ps

/-- The suffix after the first occurrence of sep, none when sep is absent. -/
def afterFirst (sep : List Char) : List Char → Option (List Char)
  | [] => none
  | c :: rest =>
    if startsWith (c :: rest) sep then some ((c :: rest).drop sep.length)
    else afterFirst sep rest

/-- The prefix up to the first occurrence of sep. -/
def upToFirst (sep : List Char) : List Char → List Char
  | [] => []
  | c :: rest =>
    if startsWith (c :: rest) sep then []
    else c :: upToFirst sep rest

/-- Python `s.split(sep)[1]`, reached only when sep occurs in s: the text
between the first and the second occurrence of sep, to the end when there
is no second occurrence. -/
def splitIndexOne (sep s : List Char) : List Char :=
  match afterFirst sep s with
  | none => []
  | some suffix => upToFirst sep suffix

/-- Exact rational arithmetic on unreduced fractions (integer numerator,
positive denominator). The Python float scores and costs are modelled as
exact rationals; fractions are never normalized, so every operation reduces
in the kernel, and comparisons cross-multiply. -/
structure Frac where
  num : Int
  den : Nat
deriving DecidableEq

def fracAdd (x y : Frac) : Frac := ⟨x.num * y.den + y.num * x.den, x.den * y.den⟩

def fracMul (x y : Frac) : Frac := ⟨x.num * y.num, x.den * y.den⟩

def fracDivNat (x : Frac) (n : Nat) : Frac := ⟨x.num, x.den * n⟩

def fracLt (x y : Frac) : Bool := decide (x.num * y.den < y.num * x.den)

def fracLe (x y : Frac) : Bool := decide (x.num * y.den ≤ y.num * x.den)

def fracSum (l : List Frac) : Frac := l.foldl fracAdd ⟨0, 1⟩

/-- One model info record of the ModelRegistry. Fields mirror the keys the
selection logic reads from the Python info dict: provider, size (absent for
gpt-4, hence an Option), capabilities, performance scores, token costs and
context window; the version and description entries are never read and are
omitted. Float scores and costs become exact rationals. A field missing
from the dict reads as the default given here. -/
structure ModelInfo where
  provider : String := ""
  size : Option String := none
  capabilities : List String := []
  performance : List (String × Frac) := []
  costInput : Frac := ⟨0, 1⟩
  costOutput : Frac := ⟨0, 1⟩
  contextWindow : Nat := 0
deriving DecidableEq

/-- The all-defaults record, standing for the empty Python info dict; the
truthiness test the selector applies to a found info dict is modelled as
inequality with this record. -/
def ModelInfo.emptyInfo : ModelInfo := {}

/-- `class ModelRegistry`: the ordered model catalog plus the mutable
default model name. -/
structure ModelRegistry where
  models : List (String × ModelInfo)
  defaultModel : String
deriving DecidableEq

/-- `ModelRegistry.register_model`: insert or overwrite (last write wins). -/
def registerModel (r : ModelRegistry) (name : String) (info : ModelInfo) : ModelRegistry :=
  { r with models := dinsert r.models name info }

/-- `ModelRegistry.get_model`: the stored info record, or none. -/
def getModel (r : ModelRegistry) (name : String) : Option ModelInfo :=
  dlookup r.models name

/-- `ModelRegistry.list_models`: all registered names in insertion order. -/
def listModels (r : ModelRegistry) : List String := r.models.map Prod.fst

/-- `ModelRegistry.set_default_model`: fails when the name is unregistered. -/
def setDefaultModel (r : ModelRegistry) (name : String) : Bool × ModelRegistry :=
  if dmem r.models name then (true, { r with defaultModel := name })
  else (false, r)

def claude3SonnetInfo : ModelInfo :=
  { provider := "ChatLLM", size := some "Sonnet",
    capabilities := ["natural_language_understanding", "code_generation", "reasoning",
      "instruction_following", "system_design", "debugging"],
    performance := [("reasoning", ⟨9, 10⟩), ("code_generation", ⟨85, 100⟩),
      ("system_design", ⟨9, 10⟩), ("debugging", ⟨8, 10⟩)],
    costInput := ⟨325, 100000000⟩, costOutput := ⟨1550, 100000000⟩,
    contextWindow := 200000 }

def claude3OpusInfo : ModelInfo :=
  { provider := "ChatLLM", size := some "Opus",
    capabilities := ["natural_language_understanding", "code_generation", "reasoning",
      "instruction_following", "system_design", "debugging", "complex_reasoning"],
    performance := [("reasoning", ⟨95, 100⟩), ("code_generation", ⟨9, 10⟩),
      ("system_design", ⟨95, 100⟩), ("debugging", ⟨9, 10⟩)],
    costInput := ⟨1500, 100000000⟩, costOutput := ⟨7500, 100000000⟩,
    contextWindow := 200000 }

def claude3HaikuInfo : ModelInfo :=
  { provider := "ChatLLM", size := some "Haiku",
    capabilities := ["natural_language_understanding", "code_generation", "reasoning",
      "instruction_following"],
    performance := [("reasoning", ⟨8, 10⟩), ("code_generation", ⟨75, 100⟩),
      ("system_design", ⟨7, 10⟩), ("debugging", ⟨65, 100⟩)],
    costInput := ⟨25, 100000000⟩, costOutput := ⟨125, 100000000⟩,
    contextWindow := 200000 }

def gpt4Info : ModelInfo :=
  { provider := "ChatLLM",
    capabilities := ["natural_language_understanding", "code_generation", "reasoning",
      "instruction_following", "system_design", "debugging", "complex_reasoning"],
    performance := [("reasoning", ⟨95, 100⟩), ("code_generation", ⟨9, 10⟩),
      ("system_design", ⟨95, 100⟩), ("debugging", ⟨9, 10⟩)],
    costInput := ⟨3, 100000⟩, costOutput := ⟨6, 100000⟩, contextWindow := 128000 }

def gpt4TurboInfo : ModelInfo :=
  { provider := "ChatLLM", size := some "Turbo",
    capabilities := ["natural_language_understanding", "code_generation", "reasoning",
      "instruction_following", "system_design", "debugging", "complex_reasoning"],
    performance := [("reasoning", ⟨95, 100⟩), ("code_generation", ⟨9, 10⟩),
      ("system_design", ⟨95, 100⟩), ("debugging", ⟨9, 10⟩)],
    costInput := ⟨1, 100000⟩, costOutput := ⟨3, 100000⟩, contextWindow := 128000 }

/-- `ModelRegistry.__init__`: start empty and register the five default
models in order (`_register_default_models`), with the caller-chosen
default model name. -/
def mkDefaultRegistry (defaultModel : String) : ModelRegistry :=
  registerModel (registerModel (registerModel (registerModel (registerModel
    ⟨[], defaultModel⟩
    "claude-3-sonnet" claude3SonnetInfo)
    "claude-3-opus" claude3OpusInfo)
    "claude-3-haiku" claude3HaikuInfo)
    "gpt-4" gpt4Info)
    "gpt-4-turbo" gpt4TurboInfo

/-- The registry the Orchestrator constructs: `config.get("model.default")`
is "Claude-3.7-Sonnet" (config.py), passed to ModelRegistry as the default
model name. -/
def orchestratorRegistry : ModelRegistry := mkDefaultRegistry "Claude-3.7-Sonnet"

/-- The task description dict handed to `ModelSelector.select_model`: type,
free-text requirements and constraints, and the optional explicit "model"
entry. -/
structure TaskDesc where
  taskType : String := ""
  requirements : List String := []
  constraints : List String := []
  model : Option String := none
deriving DecidableEq

/-- The task-type to required-capability table of
`_determine_required_capabilities`. -/
def taskCapabilityMap (taskType : String) : List String :=
  match taskType with
  | "system_design" => ["natural_language_understanding", "reasoning", "system_design"]
  | "component_design" => ["natural_language_understanding", "reasoning", "system_design"]
  | "interface_design" => ["natural_language_understanding", "reasoning", "system_design"]
  | "analyze_requirements" => ["natural_language_understanding", "reasoning"]
  | "implement_component" => ["natural_language_understanding", "code_generation"]
  | "implement_interface" => ["natural_language_understanding", "code_generation"]
  | "refactor_code" => ["natural_language_understanding", "code_generation"]
  | "fix_bug" => ["natural_language_understanding", "code_generation", "debugging"]
  | "test_component" => ["natural_language_understanding", "code_generation", "debugging"]
  | "validate_interface" => ["natural_language_understanding", "code_generation", "debugging"]
  | "performance_test" => ["natural_language_understanding", "code_generation", "debugging"]
  | _ => ["natural_language_understanding", "instruction_following"]

/-- `_determine_required_capabilities`: the base table entry, extended by
keyword scans over the lower-cased requirements, then de-duplicated. The
Python `list(set(...))` yields an unspecified order; only membership is
used downstream, so keeping first occurrences is faithful. -/
def determineRequiredCapabilities (taskType : String) (requirements : List String) :
    List String :=
  let base := taskCapabilityMap taskType
  let caps := requirements.foldl (fun acc req =>
    let r := lowerStr req
    let acc1 := if containsSub r "complex" && containsSub r "reasoning"
      then acc ++ ["complex_reasoning"] else acc
    let acc2 := if containsSub r "optimize" || containsSub r "performance"
      then acc1 ++ ["debugging"] else acc1
    if containsSub r "security" then acc2 ++ ["debugging"] else acc2) base
  caps.eraseDups

/-- `_find_candidate_models`: the registered names whose capability list
contains every required capability. -/
def findCandidateModels (r : ModelRegistry) (required : List String) : List String :=
  (listModels r).filter fun name =>
    required.all fun c =>
      (((getModel r name).getD ModelInfo.emptyInfo).capabilities).contains c

/-- One constraint check of `_apply_constraints`: cost ceiling for
budget/low-cost wording, average performance floor for high-performance
wording, provider equality for a provider: token; the conjunction mirrors
the break-on-first-violation loop. -/
def satisfiesConstraint (info : ModelInfo) (constraint : String) : Bool :=
  let c := lowerStr constraint
  let costBad := (containsSub c "low cost" || containsSub c "budget") &&
    fracLt ⟨3, 100000⟩ info.costOutput
  let perfVals := info.performance.map Prod.snd
  let perfBad := containsSub c "high performance" &&
    (perfVals.isEmpty || fracLt (fracDivNat (fracSum perfVals) perfVals.length) ⟨85, 100⟩)
  let provBad := containsSub c "provider:" &&
    decide (lowerStr info.provider ≠ ⟨trimChars (splitIndexOne "provider:".toList c.toList)⟩)
  !(costBad || perfBad || provBad)

/-- `_apply_constraints`: with no constraints return the candidates
unchanged, else keep the candidates satisfying every constraint. -/
def applyConstraints (r : ModelRegistry) (candidates : List String)
    (constraints : List String) : List String :=
  if constraints = [] then candidates
  else candidates.filter fun name =>
    constraints.all fun c =>
      satisfiesConstraint ((getModel r name).getD ModelInfo.emptyInfo) c

/-- The task-type to relevant-metric table of `_rank_models`. -/
def taskMetricMap (taskType : String) : List String :=
  match taskType with
  | "system_design" => ["system_design", "reasoning"]
  | "component_design" => ["system_design", "reasoning"]
  | "interface_design" => ["system_design", "reasoning"]
  | "analyze_requirements" => ["reasoning"]
  | "implement_component" => ["code_generation"]
  | "implement_interface" => ["code_generation"]
  | "refactor_code" => ["code_generation"]
  | "fix_bug" => ["debugging", "code_generation"]
  | "test_component" => ["debugging", "code_generation"]
  | "validate_interface" => ["debugging", "code_generation"]
  | "performance_test" => ["debugging"]
  | _ => ["reasoning"]

/-- The per-size efficiency multiplier of `_rank_models`: Opus slightly
penalized, Haiku slightly boosted. -/
def sizeFactor (info : ModelInfo) : Frac :=
  if info.size = some "Opus" then ⟨9, 10⟩
  else if info.size = some "Haiku" then ⟨11, 10⟩
  else ⟨1, 1⟩

/-- The ranking score of one candidate: mean performance over the relevant
metrics (0 when the metric list is empty), scaled by the size factor. -/
def modelScore (r : ModelRegistry) (taskType : String) (name : String) : Frac :=
  let info := (getModel r name).getD ModelInfo.emptyInfo
  let metrics := taskMetricMap taskType
  let scores := metrics.map fun m => (dlookup info.performance m).getD ⟨0, 1⟩
  let avg := if scores.isEmpty then ⟨0, 1⟩ else fracDivNat (fracSum scores) scores.length
  fracMul avg (sizeFactor info)

/-- Stable insertion into a list sorted by descending score: a new element
goes after every element whose score is greater than or equal to its own,
which gives exactly the stability of the Python sort with reverse=True. -/
def insertDesc (x : String × Frac) : List (String × Frac) → List (String × Frac)
  | [] => [x]
  | y :: rest => if fracLe x.2 y.2 then y :: insertDesc x rest else x :: y :: rest

/-- `_rank_models`: score each candidate and sort descending, stably. The
requirements argument is accepted and ignored, as in the source. -/
def rankModels (r : ModelRegistry) (candidates : List String) (taskType : String)
    (requirements : List String) : List String :=
  let scored := candidates.map fun n => (n, modelScore r taskType n)
  (scored.foldl (fun acc x => insertDesc x acc) []).map Prod.fst

/-- The truthiness test the selector applies to the result of get_model: a
missing model and a model stored with an empty (all-defaults) info dict are
both falsy. -/
def truthyInfo : Option ModelInfo → Bool
  | none => false
  | some info => decide (info ≠ ModelInfo.emptyInfo)

/-- The capability/constraint/ranking pipeline of `select_model`, reached
when no explicit registered model is requested: candidates by capability
(default model on none), constraint filtering (discarded when it empties
the set), ranking, and the top entry (default model when ranking returns
nothing). -/
def selectByPolicy (r : ModelRegistry) (task : TaskDesc) : String :=
  let required := determineRequiredCapabilities task.taskType task.requirements
  let candidates := findCandidateModels r required
  if candidates = [] then r.defaultModel
  else
    let filtered := applyConstraints r candidates task.constraints
    let filtered2 := if filtered = [] then candidates else filtered
    let ranked := rankModels r filtered2 task.taskType task.requirements
    match ranked with
    | [] => r.defaultModel
    | m :: _ => m

/-- `ModelSelector.select_model`: an explicit request whose info dict is
truthy wins immediately; otherwise the policy pipeline runs. -/
def selectModel (r : ModelRegistry) (task : TaskDesc) : String :=
  match task.model with
  | some requested =>
    if truthyInfo (getModel r requested) then requested
    else selectByPolicy r task
  | none => selectByPolicy r task

/-- The Orchestrator registry after register_model overwrites the three
complex-reasoning-capable models with empty info dicts — a registry state
reachable through the public register_model API in which no registered
model covers the complex_reasoning capability. -/
def regNoComplex : ModelRegistry :=
  registerModel (registerModel (registerModel orchestratorRegistry
    "claude-3-opus" ModelInfo.emptyInfo)
    "gpt-4" ModelInfo.emptyInfo)
    "gpt-4-turbo" ModelInfo.emptyInfo

theorem dlookup_dinsert_self {α : Type} (d : List (String × α)) (k : String) (v : α) :
    dlookup (dinsert d k v) k = some v := by
  induction d with
  | nil => simp [dinsert, dlookup]
  | cons p rest ih =>
    obtain ⟨a, b⟩ := p
    by_cases h : a = k
    · simp [dinsert, h, dlookup]
    · simp [dinsert, h, dlookup, ih]

theorem dlookup_dinsert_ne {α : Type} (d : List (String × α)) {k k' : String} (v : α)
    (h : k' ≠ k) : dlookup (dinsert d k v) k' = dlookup d k' := by
  have hkk : ¬ k = k' := fun hh => h hh.symm
  induction d with
  | nil => simp [dinsert, dlookup, hkk]
  | cons p rest ih =>
    obtain ⟨a, b⟩ := p
    by_cases hp : a = k
    · subst hp
      simp [dinsert, dlookup, hkk]
    · simp [dinsert, hp, dlookup, ih]

theorem dinsert_self {α : Type} {d : List (String × α)} {k : String} {v : α}
    (h : dlookup d k = some v) : dinsert d k v = d := by
  induction d with
  | nil => simp [dlookup] at h
  | cons p rest ih =>
    obtain ⟨a, b⟩ := p
    by_cases hp : a = k
    · subst hp
      simp [dlookup] at h
      simp [dinsert, h]
    · simp [dlookup, hp] at h
      simp [dinsert, hp, ih h]

theorem dlookup_mem {α : Type} {d : List (String × α)} {k : String} {v : α}
    (h : dlookup d k = some v) : (k, v) ∈ d := by
  induction d with
  | nil => simp [dlookup] at h
  | cons p rest ih =>
    obtain ⟨a, b⟩ := p
    by_cases hp : a = k
    · subst hp
      simp [dlookup] at h
      simp [h]
    · simp [dlookup, hp] at h
      exact List.mem_cons_of_mem _ (ih h)

theorem mem_dinsert {α : Type} {x : String × α} {d : List (String × α)} {k : String} {v : α}
    (h : x ∈ dinsert d k v) : x = (k, v) ∨ x ∈ d := by
  induction d with
  | nil => simp [dinsert] at h; simp [h]
  | cons p rest ih =>
    obtain ⟨a, b⟩ := p
    by_cases hp : a = k
    · subst hp
      simp [dinsert] at h
      rcases h with h | h
      · exact Or.inl (by simp [h])
      · exact Or.inr (List.mem_cons_of_mem _ h)
    · simp [dinsert, hp] at h
      rcases h with h | h
      · exact Or.inr (by simp [h])
      · rcases ih h with h' | h'
        · exact Or.inl h'
        · exact Or.inr (List.mem_cons_of_mem _ h')

theorem dlookup_eq_none_of_not_mem {α : Type} {d : List (String × α)} {k : String}
    (h : k ∉ d.map Prod.fst) : dlookup d k = none := by
  induction d with
  | nil => simp [dlookup]
  | cons p rest ih =>
    obtain ⟨a, b⟩ := p
    simp at h
    have h1 : ¬ a = k := fun hh => h.1 hh.symm
    have h2 : k ∉ rest.map Prod.fst := by
      intro hh
      obtain ⟨⟨c, e⟩, hcd, hfst⟩ := List.mem_map.mp hh
      simp at hfst
      rw [hfst] at hcd
      exact h.2 e hcd
    simp [dlookup, h1, ih h2]

theorem dlookup_derase_nodup {α : Type} {d : List (String × α)} {k : String}
    (h : (d.map Prod.fst).Nodup) : dlookup (derase d k) k = none := by
  induction d with
  | nil => simp [derase, dlookup]
  | cons p rest ih =>
    obtain ⟨a, b⟩ := p
    rw [List.map_cons, List.nodup_cons] at h
    by_cases hp : a = k
    · subst hp
      simp [derase]
      exact dlookup_eq_none_of_not_mem h.1
    · simp [derase, hp, dlookup, ih h.2]

theorem enqueuedAt_append (p : Priority) (l1 l2 : List QOp) :
    enqueuedAt p (l1 ++ l2) = enqueuedAt p l1 ++ enqueuedAt p l2 := by
  induction l1 with
  | nil => simp [enqueuedAt]
  | cons op l ih =>
    cases op with
    | put t => by_cases h : t.priority = p <;> simp [enqueuedAt, h, ih]
    | get => simp [enqueuedAt, ih]

theorem dequeuedAt_append (p : Priority) (l1 l2 : List (Option QTask)) :
    dequeuedAt p (l1 ++ l2) = dequeuedAt p l1 ++ dequeuedAt p l2 := by
  induction l1 with
  | nil => simp [dequeuedAt]
  | cons o l ih =>
    cases o with
    | some t => by_cases h : t.priority = p <;> simp [dequeuedAt, h, ih]
    | none => simp [dequeuedAt, ih]

theorem mem_enqueuedAt {t : QTask} {p : Priority} {ops : List QOp}
    (h : t ∈ enqueuedAt p ops) : t.priority = p := by
  induction ops with
  | nil => simp [enqueuedAt] at h
  | cons op l ih =>
    cases op with
    | put t' =>
      by_cases hp : t'.priority = p
      · simp [enqueuedAt, hp] at h
        rcases h with h | h
        · rw [h]; exact hp
        · exact ih h
      · simp [enqueuedAt, hp] at h
        exact ih h
    | get =>
      simp [enqueuedAt] at h
      exact ih h

theorem tier_putTask (q : TaskQueue) (t : QTask) (p : Priority) :
    tier (putTask q t) p = if t.priority = p then tier q p ++ [t] else tier q p := by
  cases ht : t.priority <;> cases p <;> simp [putTask, ht, tier]

/-- Case analysis on a dequeue: either all tiers are empty and nothing
changes, or the front task of some tier is popped and the other tiers are
untouched. -/
theorem getTask_spec (q : TaskQueue) :
    ((getTask q).1 = none ∧ (getTask q).2 = q) ∨
    (∃ t pt rest, (getTask q).1 = some t ∧ tier q pt = t :: rest ∧
      ∀ p, tier (getTask q).2 p = if p = pt then rest else tier q p) := by
  rcases hh : q.high with _ | ⟨t, rest⟩
  case cons =>
    right
    refine ⟨t, .high, rest, by simp [getTask, hh], by simp [tier, hh], ?_⟩
    intro p
    cases p <;> simp [getTask, hh, tier]
  case nil =>
    rcases hm : q.medium with _ | ⟨t, rest⟩
    case cons =>
      right
      refine ⟨t, .medium, rest, by simp [getTask, hh, hm], by simp [tier, hm], ?_⟩
      intro p
      cases p <;> simp [getTask, hh, hm, tier]
    case nil =>
      rcases hl : q.low with _ | ⟨t, rest⟩
      case cons =>
        right
        refine ⟨t, .low, rest, by simp [getTask, hh, hm, hl], by simp [tier, hl], ?_⟩
        intro p
        cases p <;> simp [getTask, hh, hm, hl, tier]
      case nil =>
        left
        simp [getTask, hh, hm, hl]

theorem getTask_fst_eq_head (q : TaskQueue) :
    (getTask q).1 = (pendingTasks q).head? := by
  rcases hh : q.high with _ | ⟨t, rest⟩ <;>
    rcases hm : q.medium with _ | ⟨t', rest'⟩ <;>
      rcases hl : q.low with _ | ⟨t'', rest''⟩ <;>
        simp [getTask, pendingTasks, hh, hm, hl]

theorem getTask_some_pending {q : TaskQueue} {t : QTask} {q' : TaskQueue}
    (h : getTask q = (some t, q')) : pendingTasks q = t :: pendingTasks q' := by
  rcases hh : q.high with _ | ⟨t0, rest⟩
  case cons =>
    simp [getTask, hh] at h
    obtain ⟨h1, h2⟩ := h
    subst h1
    rw [← h2]
    simp [pendingTasks, hh]
  case nil =>
    rcases hm : q.medium with _ | ⟨t0, rest⟩
    case cons =>
      simp [getTask, hh, hm] at h
      obtain ⟨h1, h2⟩ := h
      subst h1
      rw [← h2]
      simp [pendingTasks, hh, hm]
    case nil =>
      rcases hl : q.low with _ | ⟨t0, rest⟩
      case cons =>
        simp [getTask, hh, hm, hl] at h
        obtain ⟨h1, h2⟩ := h
        subst h1
        rw [← h2]
        simp [pendingTasks, hh, hm, hl]
      case nil =>
        simp [getTask, hh, hm, hl] at h

theorem getTask_lookup {q : TaskQueue} {t : QTask} {q' : TaskQueue}
    (h : getTask q = (some t, q')) : q'.taskLookup = derase q.taskLookup t.id := by
  rcases hh : q.high with _ | ⟨t0, rest⟩
  case cons =>
    simp [getTask, hh] at h
    obtain ⟨h1, h2⟩ := h
    subst h1
    rw [← h2]
  case nil =>
    rcases hm : q.medium with _ | ⟨t0, rest⟩
    case cons =>
      simp [getTask, hh, hm] at h
      obtain ⟨h1, h2⟩ := h
      subst h1
      rw [← h2]
    case nil =>
      rcases hl : q.low with _ | ⟨t0, rest⟩
      case cons =>
        simp [getTask, hh, hm, hl] at h
        obtain ⟨h1, h2⟩ := h
        subst h1
        rw [← h2]
      case nil =>
        simp [getTask, hh, hm, hl] at h

theorem drop_cons_succ {α : Type} : ∀ (l : List α) (k : Nat) (t : α) (rest : List α),
    l.drop k = t :: rest → l.drop (k + 1) = rest := by
  intro l k
  induction k generalizing l with
  | zero =>
    intro t rest h
    simp at h
    simp [h]
  | succ n ih =>
    intro t rest h
    cases l with
    | nil => simp at h
    | cons x xs =>
      rw [List.drop_succ_cons] at h
      rw [List.drop_succ_cons]
      exact ih xs t rest h

theorem take_succ_of_drop_cons {α : Type} : ∀ (l : List α) (k : Nat) (t : α) (rest : List α),
    l.drop k = t :: rest → l.take (k + 1) = l.take k ++ [t] := by
  intro l k
  induction k generalizing l with
  | zero =>
    intro t rest h
    simp at h
    simp [h]
  | succ n ih =>
    intro t rest h
    cases l with
    | nil => simp at h
    | cons x xs =>
      rw [List.drop_succ_cons] at h
      simp [List.take_succ_cons]
      exact ih xs t rest h

theorem lt_length_of_drop_cons {α : Type} {l : List α} {k : Nat} {t : α} {rest : List α}
    (h : l.drop k = t :: rest) : k < l.length := by
  by_contra hk
  push_neg at hk
  rw [List.drop_eq_nil_of_le hk] at h
  simp at h

theorem dequeuedAt_append_none (p : Priority) (l : List (Option QTask)) :
    dequeuedAt p (l ++ [none]) = dequeuedAt p l := by
  simp [dequeuedAt_append, dequeuedAt]

theorem dequeuedAt_append_some (p : Priority) (l : List (Option QTask)) (t : QTask) :
    dequeuedAt p (l ++ [some t]) =
      dequeuedAt p l ++ (if t.priority = p then [t] else []) := by
  by_cases h : t.priority = p <;> simp [dequeuedAt_append, dequeuedAt, h]

/-- State invariant of a run of queue operations: for every priority, the
tier holds exactly the enqueued tasks of that priority with the first k
dropped, and the dequeued tasks of that priority are exactly those first k,
in enqueue order. -/
theorem runQ_inv (ops : List QOp) :
    ∀ p, ∃ k, k ≤ (enqueuedAt p ops).length ∧
      tier (runQ ops).1 p = (enqueuedAt p ops).drop k ∧
      dequeuedAt p (runQ ops).2 = (enqueuedAt p ops).take k := by
  induction ops using List.reverseRecOn with
  | nil =>
    intro p
    refine ⟨0, by simp [enqueuedAt], ?_, ?_⟩
    · cases p <;> simp [runQ, TaskQueue.emptyQ, tier, enqueuedAt]
    · simp [runQ, dequeuedAt, enqueuedAt]
  | append_singleton ops op ih =>
    have hrun : runQ (ops ++ [op]) = stepQ (runQ ops) op := by
      simp [runQ, List.foldl_append]
    cases op with
    | put t =>
      intro p
      obtain ⟨k, hk, ht, hd⟩ := ih p
      have henq : enqueuedAt p (ops ++ [QOp.put t]) =
          enqueuedAt p ops ++ (if t.priority = p then [t] else []) := by
        by_cases h : t.priority = p <;> simp [enqueuedAt_append, enqueuedAt, h]
      have hout : (runQ (ops ++ [QOp.put t])).2 = (runQ ops).2 := by
        rw [hrun]
        rfl
      have htier : tier (runQ (ops ++ [QOp.put t])).1 p =
          if t.priority = p then tier (runQ ops).1 p ++ [t] else tier (runQ ops).1 p := by
        rw [hrun]
        exact tier_putTask _ _ _
      by_cases hp : t.priority = p
      · refine ⟨k, ?_, ?_, ?_⟩
        · rw [henq]
          simp [hp]
          omega
        · rw [htier, henq, List.drop_append_of_le_length hk]
          simp [hp, ht]
        · rw [hout, hd, henq, List.take_append_of_le_length hk]
      · refine ⟨k, ?_, ?_, ?_⟩
        · rw [henq]
          simp [hp]
          exact hk
        · rw [htier, henq]
          simp [hp, ht]
        · rw [hout, hd, henq]
          simp [hp]
    | get =>
      intro p
      have hout : (runQ (ops ++ [QOp.get])).2 =
          (runQ ops).2 ++ [(getTask (runQ ops).1).1] := by
        rw [hrun]
        rfl
      have hq : (runQ (ops ++ [QOp.get])).1 = (getTask (runQ ops).1).2 := by
        rw [hrun]
        rfl
      have henq : ∀ p', enqueuedAt p' (ops ++ [QOp.get]) = enqueuedAt p' ops := by
        intro p'
        simp [enqueuedAt_append, enqueuedAt]
      rcases getTask_spec (runQ ops).1 with ⟨h1, h2⟩ | ⟨t, pt, rest, h1, h2, h3⟩
      · obtain ⟨k, hk, ht, hd⟩ := ih p
        refine ⟨k, by rw [henq]; exact hk, ?_, ?_⟩
        · rw [hq, h2, henq]
          exact ht
        · rw [hout, h1, henq, dequeuedAt_append_none]
          exact hd
      · have htp : t.priority = pt := by
          obtain ⟨k0, _, ht0, _⟩ := ih pt
          have hmem : t ∈ enqueuedAt pt ops := by
            have hm2 : t ∈ tier (runQ ops).1 pt := by
              rw [h2]
              exact List.mem_cons_self _ _
            rw [ht0] at hm2
            exact List.drop_subset _ _ hm2
          exact mem_enqueuedAt hmem
        by_cases hp : p = pt
        · subst hp
          obtain ⟨k, hk, ht, hd⟩ := ih p
          have hdk : (enqueuedAt p ops).drop k = t :: rest := by
            rw [← ht, h2]
          refine ⟨k + 1, ?_, ?_, ?_⟩
          · have := lt_length_of_drop_cons hdk
            rw [henq]
            omega
          · rw [hq, henq, h3]
            simp
            exact (drop_cons_succ _ _ _ _ hdk).symm
          · rw [hout, h1, henq, dequeuedAt_append_some, hd,
              take_succ_of_drop_cons _ _ _ _ hdk]
            simp [htp]
        · obtain ⟨k, hk, ht, hd⟩ := ih p
          refine ⟨k, by rw [henq]; exact hk, ?_, ?_⟩
          · rw [hq, henq, h3]
            simp [hp, ht]
          · rw [hout, h1, henq, dequeuedAt_append_some, hd]
            have : ¬ t.priority = p := by
              rw [htp]
              exact fun hc => hp hc.symm
            simp [this]

theorem drainFuel_eq (n : Nat) :
    ∀ q : TaskQueue, (pendingTasks q).length ≤ n → drainFuel n q = pendingTasks q := by
  induction n with
  | zero =>
    intro q h
    have hnil : pendingTasks q = [] :=
      List.eq_nil_of_length_eq_zero (Nat.le_zero.mp h)
    simp [drainFuel, hnil]
  | succ n ih =>
    intro q h
    rcases hg : getTask q with ⟨r, q'⟩
    cases r with
    | some t =>
      have hp := getTask_some_pending hg
      have hlen : (pendingTasks q').length ≤ n := by
        have := congrArg List.length hp
        simp at this
        omega
      simp [drainFuel, hg, hp, ih q' hlen]
    | none =>
      have hnone : (getTask q).1 = none := by rw [hg]
      have hnil : pendingTasks q = [] := by
        have := getTask_fst_eq_head q
        rw [hnone] at this
        exact List.head?_eq_none_iff.mp this.symm
      simp [drainFuel, hg, hnil]

theorem drainAll_eq_pendingTasks (q : TaskQueue) : drainAll q = pendingTasks q :=
  drainFuel_eq _ q le_rfl

theorem removeTask_tiers (q : TaskQueue) (taskId : String) :
    pendingTasks (removeTask q taskId).2 = pendingTasks q := by
  unfold removeTask
  split <;> simp [pendingTasks]

/-- C3: for every sequence of put calls interleaved with get calls on the
TaskQueue, each get returns the front task of the highest non-empty priority
tier, HIGH before MEDIUM before LOW, and returns none exactly when all three
tiers are empty (the result of a get is precisely the head of the pending
tasks listed tier by tier); and within each priority the dequeued tasks form
an initial segment of the enqueued tasks of that priority, in enqueue order
(FIFO). -/
theorem c3_taskQueue_priority_fifo :
    (∀ (ops : List QOp) (p : Priority),
        ∃ k, dequeuedAt p (runQ ops).2 = (enqueuedAt p ops).take k) ∧
    (∀ q : TaskQueue, (getTask q).1 = (pendingTasks q).head?) := by
  constructor
  · intro ops p
    obtain ⟨k, _, _, hd⟩ := runQ_inv ops p
    exact ⟨k, hd⟩
  · exact getTask_fst_eq_head

/-- C6 counterexample: removing a task that was already removed returns True
again, not False as the claim states: the removal marker keeps the id as a
key of the lookup dict, so the membership test passes a second time. The
first conjunct is the first remove, the second conjunct the repeated one. -/
theorem c6_remove_twice_counterexample :
    (removeTask (putTask TaskQueue.emptyQ ⟨"t1", Priority.high⟩) "t1").1 = true ∧
    (removeTask (removeTask (putTask TaskQueue.emptyQ ⟨"t1", Priority.high⟩) "t1").2
        "t1").1 = true := by
  decide

/-- C6 (amended): removing a task that has already been dequeued returns
False and changes nothing; removing a task that was already removed leaves
the state unchanged but returns True, because the removal marker keeps the
id in the lookup dict. The Nodup hypothesis records that the lookup keys of
a queue built by put, get and remove are distinct. -/
theorem c6_remove_after_dequeue_amended :
    (∀ (q : TaskQueue) (t : QTask) (q' : TaskQueue),
        (q.taskLookup.map Prod.fst).Nodup → getTask q = (some t, q') →
        removeTask q' t.id = (false, q')) ∧
    (∀ (q : TaskQueue) (taskId : String),
        dlookup q.taskLookup taskId = some none →
        removeTask q taskId = (true, q)) := by
  constructor
  · intro q t q' hn hg
    have hlk : dlookup q'.taskLookup t.id = none := by
      rw [getTask_lookup hg]
      exact dlookup_derase_nodup hn
    simp [removeTask, dmem, hlk]
  · intro q tid h
    have hins : dinsert q.taskLookup tid none = q.taskLookup := dinsert_self h
    simp [removeTask, dmem, h, hins]

/-- Witness for the amended C6 theorem at a concrete queue: one task is
enqueued and dequeued, after which remove on its id returns False. -/
theorem c6_remove_after_dequeue_amended_witness :
    ((((putTask TaskQueue.emptyQ ⟨"t1", Priority.high⟩).taskLookup.map Prod.fst).Nodup) ∧
      getTask (putTask TaskQueue.emptyQ ⟨"t1", Priority.high⟩) =
        (some ⟨"t1", Priority.high⟩, ⟨[], [], [], []⟩)) ∧
    removeTask (⟨[], [], [], []⟩ : TaskQueue) "t1" = (false, ⟨[], [], [], []⟩) :=
  ⟨⟨by decide, by decide⟩,
    c6_remove_after_dequeue_amended.1 (putTask TaskQueue.emptyQ ⟨"t1", Priority.high⟩)
      ⟨"t1", Priority.high⟩ ⟨[], [], [], []⟩ (by decide) (by decide)⟩

/-- C8: a successful remove never deletes the task from its priority queue:
the pending tiers are unchanged and the task is still returned by draining
the queue with get calls. -/
theorem c8_removed_task_still_dequeued :
    ∀ (q : TaskQueue) (taskId : String) (t : QTask),
      t ∈ pendingTasks q → (removeTask q taskId).1 = true →
      pendingTasks (removeTask q taskId).2 = pendingTasks q ∧
      t ∈ drainAll (removeTask q taskId).2 := by
  intro q tid t hmem _
  refine ⟨removeTask_tiers q tid, ?_⟩
  rw [drainAll_eq_pendingTasks, removeTask_tiers]
  exact hmem

/-- Witness for the C8 theorem at a concrete queue: a single enqueued task
is cancelled via remove (which returns True) and is nevertheless still
drained. -/
theorem c8_removed_task_still_dequeued_witness :
    ((⟨"t1", Priority.high⟩ : QTask) ∈
        pendingTasks (putTask TaskQueue.emptyQ ⟨"t1", Priority.high⟩) ∧
      (removeTask (putTask TaskQueue.emptyQ ⟨"t1", Priority.high⟩) "t1").1 = true) ∧
    (pendingTasks (removeTask (putTask TaskQueue.emptyQ ⟨"t1", Priority.high⟩) "t1").2 =
        pendingTasks (putTask TaskQueue.emptyQ ⟨"t1", Priority.high⟩) ∧
      (⟨"t1", Priority.high⟩ : QTask) ∈
        drainAll (removeTask (putTask TaskQueue.emptyQ ⟨"t1", Priority.high⟩) "t1").2) :=
  ⟨⟨by decide, by decide⟩,
    c8_removed_task_still_dequeued _ _ _ (by decide) (by decide)⟩

theorem allSubtasksComplete_setStatus (wf : Workflow) (s : TaskStatus) :
    allSubtasksComplete { wf with status := s } = allSubtasksComplete wf := rfl

theorem allSubtasksSuccessful_setStatus (wf : Workflow) (s : TaskStatus) :
    allSubtasksSuccessful { wf with status := s } = allSubtasksSuccessful wf := rfl

/-- Characterization of one update step: subtasks are untouched, the result
is stored exactly when non-empty, and the status becomes COMPLETED or FAILED
according to the completion test on the post state, else stays unchanged. -/
theorem updatedWorkflow_spec (wf : Workflow) (tid : String) (r : ResultDict) :
    (updatedWorkflow wf tid r).subtasks = wf.subtasks ∧
    (updatedWorkflow wf tid r).results =
      (if r = [] then wf.results else dinsert wf.results tid r) ∧
    (allSubtasksComplete (updatedWorkflow wf tid r) = true →
      (updatedWorkflow wf tid r).status =
        (if allSubtasksSuccessful (updatedWorkflow wf tid r) then TaskStatus.completed
         else TaskStatus.failed)) ∧
    (allSubtasksComplete (updatedWorkflow wf tid r) = false →
      (updatedWorkflow wf tid r).status = wf.status) := by
  by_cases hC : allSubtasksComplete
      { wf with results := if r = [] then wf.results else dinsert wf.results tid r }
  · by_cases hS : allSubtasksSuccessful
        { wf with results := if r = [] then wf.results else dinsert wf.results tid r }
    · simp only [allSubtasksComplete, allSubtasksSuccessful] at hC hS
      simp [updatedWorkflow, allSubtasksComplete, allSubtasksSuccessful, hC, hS]
    · simp only [allSubtasksComplete, allSubtasksSuccessful] at hC hS
      simp [updatedWorkflow, allSubtasksComplete, allSubtasksSuccessful, hC, hS]
  · simp only [allSubtasksComplete] at hC
    simp [updatedWorkflow, allSubtasksComplete, hC]

theorem updateTaskStatus_eq (ws : WorkflowState) (tid : String) (st : TaskStatus)
    (r : ResultDict) {wid : String} {wf : Workflow}
    (h1 : dlookup ws.taskToWorkflow tid = some wid)
    (h2 : dlookup ws.workflows wid = some wf) :
    updateTaskStatus ws tid st r =
      { ws with workflows := dinsert ws.workflows wid (updatedWorkflow wf tid r) } := by
  simp [updateTaskStatus, h1, h2]

theorem stepW_statusAllowed {ws : WorkflowState} (h : statusAllowed ws) (op : WOp) :
    statusAllowed (stepW ws op) := by
  cases op with
  | create wid =>
    by_cases hc : dmem ws.workflows wid
    · simp [stepW, createWorkflow, hc]
      exact h
    · simp [stepW, createWorkflow, hc]
      intro p hp
      rcases mem_dinsert hp with h1 | h1
      · rw [h1]
        exact Or.inl rfl
      · exact h p h1
  | addT wid tid =>
    rcases hl : dlookup ws.workflows wid with _ | wf
    · simp [stepW, addTaskToWorkflow, hl]
      exact h
    · simp [stepW, addTaskToWorkflow, hl]
      intro p hp
      rcases mem_dinsert hp with h1 | h1
      · rw [h1]
        exact h (wid, wf) (dlookup_mem hl)
      · exact h p h1
  | record tid st r =>
    rcases h1 : dlookup ws.taskToWorkflow tid with _ | wid
    · simp [stepW, updateTaskStatus, h1]
      exact h
    · rcases h2 : dlookup ws.workflows wid with _ | wf
      · simp [stepW, updateTaskStatus, h1, h2]
        exact h
      · intro p hp
        have hst : stepW ws (WOp.record tid st r) = updateTaskStatus ws tid st r := rfl
        rw [hst, updateTaskStatus_eq ws tid st r h1 h2] at hp
        dsimp only at hp
        rcases mem_dinsert hp with h3 | h3
        · rw [h3]
          obtain ⟨_, _, hc3, hc4⟩ := updatedWorkflow_spec wf tid r
          cases hC : allSubtasksComplete (updatedWorkflow wf tid r) with
          | true =>
            have hstat := hc3 hC
            by_cases hS : allSubtasksSuccessful (updatedWorkflow wf tid r)
            · right
              left
              simpa [hS] using hstat
            · right
              right
              simpa [hS] using hstat
          | false =>
            have hstat := hc4 hC
            have hwf := h (wid, wf) (dlookup_mem h2)
            simpa [hstat] using hwf
        · exact h p h3

theorem foldl_stepW_statusAllowed (ops : List WOp) :
    ∀ ws, statusAllowed ws → statusAllowed (ops.foldl stepW ws) := by
  induction ops with
  | nil => intro ws h; exact h
  | cons op l ih =>
    intro ws h
    exact ih _ (stepW_statusAllowed h op)

theorem runW_statusAllowed (ops : List WOp) : statusAllowed (runW ops) :=
  foldl_stepW_statusAllowed ops WorkflowState.emptyWS
    (by intro p hp; simp [WorkflowState.emptyWS] at hp)

/-- C1 counterexample: in the reachable state after createJob("w") followed
by addTask("w","t1"), the child "t1" has no recorded outcome, yet the
stored status is SUBMITTED, not IN_PROGRESS as the claim requires for every
such state: the tracker never writes IN_PROGRESS. -/
theorem c1_in_progress_counterexample :
    dlookup (runW [WOp.create "w", WOp.addT "w" "t1"]).workflows "w" =
      some ⟨.submitted, ["t1"], [], []⟩ ∧
    allSubtasksComplete ⟨.submitted, ["t1"], [], []⟩ = false ∧
    TaskStatus.submitted ≠ TaskStatus.in_progress := by
  decide

/-- C1 (amended): the tracker never stores IN_PROGRESS — every workflow of a
reachable state has status SUBMITTED, COMPLETED or FAILED — and each
recordOutcome on a known task sets the status to COMPLETED when afterwards
every child has a recorded outcome and every recorded child outcome has
status "completed", to FAILED when every child has an outcome and at least
one does not, and otherwise leaves the status unchanged (so a workflow with
outstanding children keeps its previous status, initially SUBMITTED). -/
theorem c1_workflow_status_amended :
    (∀ ops : List WOp, statusAllowed (runW ops)) ∧
    (∀ (ws : WorkflowState) (taskId : String) (st : TaskStatus) (result : ResultDict)
        (workflowId : String) (wf : Workflow),
        dlookup ws.taskToWorkflow taskId = some workflowId →
        dlookup ws.workflows workflowId = some wf →
        ∃ wf',
          dlookup (updateTaskStatus ws taskId st result).workflows workflowId = some wf' ∧
          wf'.subtasks = wf.subtasks ∧
          wf'.results =
            (if result = [] then wf.results else dinsert wf.results taskId result) ∧
          (allSubtasksComplete wf' = true →
            wf'.status =
              (if allSubtasksSuccessful wf' then TaskStatus.completed
               else TaskStatus.failed)) ∧
          (allSubtasksComplete wf' = false → wf'.status = wf.status)) := by
  constructor
  · exact runW_statusAllowed
  · intro ws tid st r wid wf h1 h2
    obtain ⟨hsub, hres, hc3, hc4⟩ := updatedWorkflow_spec wf tid r
    refine ⟨updatedWorkflow wf tid r, ?_, hsub, hres, hc3, hc4⟩
    rw [updateTaskStatus_eq ws tid st r h1 h2]
    exact dlookup_dinsert_self _ _ _

/-- Witness for the amended C1 theorem at a concrete tracker state: one
workflow with a single child task whose outcome is recorded as completed. -/
theorem c1_workflow_status_amended_witness :
    (dlookup (⟨[("w", ⟨.submitted, ["t"], [], []⟩)], [("t", "w")]⟩ :
        WorkflowState).taskToWorkflow "t" = some "w" ∧
      dlookup (⟨[("w", ⟨.submitted, ["t"], [], []⟩)], [("t", "w")]⟩ :
        WorkflowState).workflows "w" = some ⟨.submitted, ["t"], [], []⟩) ∧
    (∃ wf',
      dlookup (updateTaskStatus
          ⟨[("w", ⟨.submitted, ["t"], [], []⟩)], [("t", "w")]⟩ "t"
          TaskStatus.completed [("status", "completed")]).workflows "w" = some wf' ∧
      wf'.subtasks = (⟨.submitted, ["t"], [], []⟩ : Workflow).subtasks ∧
      wf'.results =
        (if [("status", "completed")] = ([] : ResultDict)
         then (⟨.submitted, ["t"], [], []⟩ : Workflow).results
         else dinsert (⟨.submitted, ["t"], [], []⟩ : Workflow).results "t"
            [("status", "completed")]) ∧
      (allSubtasksComplete wf' = true →
        wf'.status =
          (if allSubtasksSuccessful wf' then TaskStatus.completed
           else TaskStatus.failed)) ∧
      (allSubtasksComplete wf' = false →
        wf'.status = (⟨.submitted, ["t"], [], []⟩ : Workflow).status)) :=
  ⟨⟨by decide, by decide⟩,
    c1_workflow_status_amended.2
      ⟨[("w", ⟨.submitted, ["t"], [], []⟩)], [("t", "w")]⟩ "t"
      TaskStatus.completed [("status", "completed")] "w"
      ⟨.submitted, ["t"], [], []⟩ (by decide) (by decide)⟩

/-- C5 counterexample: addTask on an unknown workflow id raises ValueError
(the call returns an error, not a silent drop as the claim states); the
recordOutcome half of the claim does hold, shown here by an unchanged state. -/
theorem c5_addTask_unknown_raises_counterexample :
    exceptOk (addTaskToWorkflow WorkflowState.emptyWS "w" "t") = false ∧
    updateTaskStatus WorkflowState.emptyWS "t" TaskStatus.completed
        [("status", "completed")] = WorkflowState.emptyWS :=
  ⟨rfl, rfl⟩

/-- C5 (amended): recordOutcome on a task unknown to every workflow is
dropped without mutating any state and without raising; addTask on an
unknown workflow id raises ValueError to the caller, also without mutating
state (the model returns the error value and the unchanged state remains
with the caller). -/
theorem c5_unknown_ids_amended :
    (∀ (ws : WorkflowState) (taskId : String) (st : TaskStatus) (r : ResultDict),
        dlookup ws.taskToWorkflow taskId = none →
        updateTaskStatus ws taskId st r = ws) ∧
    (∀ (ws : WorkflowState) (workflowId taskId : String),
        dlookup ws.workflows workflowId = none →
        addTaskToWorkflow ws workflowId taskId =
          .error ("Workflow " ++ workflowId ++ " does not exist")) := by
  constructor
  · intro ws tid st r h
    simp [updateTaskStatus, h]
  · intro ws wid tid h
    simp [addTaskToWorkflow, h]

/-- Witness for the amended C5 theorem at the empty tracker state. -/
theorem c5_unknown_ids_amended_witness :
    (dlookup WorkflowState.emptyWS.taskToWorkflow "t" = none ∧
      updateTaskStatus WorkflowState.emptyWS "t" TaskStatus.failed
        [("error", "boom")] = WorkflowState.emptyWS) ∧
    (dlookup WorkflowState.emptyWS.workflows "w" = none ∧
      addTaskToWorkflow WorkflowState.emptyWS "w" "t" =
        .error ("Workflow " ++ "w" ++ " does not exist")) :=
  ⟨⟨by decide, c5_unknown_ids_amended.1 WorkflowState.emptyWS "t" TaskStatus.failed
      [("error", "boom")] (by decide)⟩,
   ⟨by decide, c5_unknown_ids_amended.2 WorkflowState.emptyWS "w" "t" (by decide)⟩⟩

/-- C9: completing a task of a known workflow with an empty (or None, also
falsy) result payload stores nothing: the tracker state is completely
unchanged (the timestamp touch is outside the model), so the task gains no
recorded outcome and the workflow cannot move to COMPLETED or FAILED through
that call. -/
theorem c9_empty_result_never_recorded :
    ∀ (ws : WorkflowState) (taskId workflowId : String) (wf : Workflow),
      dlookup ws.taskToWorkflow taskId = some workflowId →
      dlookup ws.workflows workflowId = some wf →
      taskId ∈ wf.subtasks →
      dlookup wf.results taskId = none →
      updateTaskStatus ws taskId TaskStatus.completed [] = ws := by
  intro ws tid wid wf h1 h2 hsub hres
  have hC : allSubtasksComplete wf = false := by
    cases hall : allSubtasksComplete wf with
    | false => rfl
    | true =>
      exfalso
      unfold allSubtasksComplete at hall
      have := List.all_eq_true.mp hall tid hsub
      rw [hres] at this
      simp at this
  have hupd : updatedWorkflow wf tid [] = wf := by
    unfold updatedWorkflow
    simp [hC]
  rw [updateTaskStatus_eq ws tid .completed [] h1 h2, hupd, dinsert_self h2]

/-- Witness for the C9 theorem at a concrete tracker state with one
outstanding child. -/
theorem c9_empty_result_never_recorded_witness :
    (dlookup (⟨[("w", ⟨.submitted, ["t"], [], []⟩)], [("t", "w")]⟩ :
        WorkflowState).taskToWorkflow "t" = some "w" ∧
      dlookup (⟨[("w", ⟨.submitted, ["t"], [], []⟩)], [("t", "w")]⟩ :
        WorkflowState).workflows "w" = some ⟨.submitted, ["t"], [], []⟩ ∧
      "t" ∈ (⟨.submitted, ["t"], [], []⟩ : Workflow).subtasks ∧
      dlookup (⟨.submitted, ["t"], [], []⟩ : Workflow).results "t" = none) ∧
    updateTaskStatus ⟨[("w", ⟨.submitted, ["t"], [], []⟩)], [("t", "w")]⟩ "t"
        TaskStatus.completed [] =
      ⟨[("w", ⟨.submitted, ["t"], [], []⟩)], [("t", "w")]⟩ :=
  ⟨⟨by decide, by decide, by decide, by decide⟩,
    c9_empty_result_never_recorded
      ⟨[("w", ⟨.submitted, ["t"], [], []⟩)], [("t", "w")]⟩ "t" "w"
      ⟨.submitted, ["t"], [], []⟩ (by decide) (by decide) (by decide) (by decide)⟩

/-- C4 counterexample: with the per-task retry counter already at the
maximum (3), the next failure is handled by the recovery path with strategy
DECOMPOSE and the counter stays at 3 — this handled failure does not
increment the counter by exactly 1 as the claim demands of every failure. -/
theorem c4_no_increment_counterexample :
    retryCountOf wfThree "t" = 3 ∧
    determineRecoveryStrategy wsThree "t" = Except.ok RecoveryStrategy.decompose ∧
    applyRecoveryStrategy wsThree "t" RecoveryStrategy.decompose = Except.ok wsThree := by
  decide

/-- C4 (amended): a failure handled with the RETRY strategy increments the
stored per-task retry counter by exactly 1; RETRY is chosen only while the
counter is strictly below the maximum (3); once the counter has reached the
maximum the next failure yields DECOMPOSE, which leaves the counter
unchanged; and with no owning workflow the strategy is ESCALATE — never a
silent drop. -/
theorem c4_retry_counter_amended :
    (∀ (ws : WorkflowState) (taskId workflowId : String) (wf : Workflow),
        dlookup ws.taskToWorkflow taskId = some workflowId →
        dlookup ws.workflows workflowId = some wf →
        retryCountOf wf taskId < maxRetries →
        determineRecoveryStrategy ws taskId = .ok .retry ∧
        ∃ wf', applyRecoveryStrategy ws taskId .retry =
            Except.ok { ws with workflows := dinsert ws.workflows workflowId wf' } ∧
          retryCountOf wf' taskId = retryCountOf wf taskId + 1) ∧
    (∀ (ws : WorkflowState) (taskId workflowId : String) (wf : Workflow),
        dlookup ws.taskToWorkflow taskId = some workflowId →
        dlookup ws.workflows workflowId = some wf →
        maxRetries ≤ retryCountOf wf taskId →
        determineRecoveryStrategy ws taskId = .ok .decompose ∧
        applyRecoveryStrategy ws taskId .decompose = .ok ws) ∧
    (∀ (ws : WorkflowState) (taskId : String),
        dlookup ws.taskToWorkflow taskId = none →
        determineRecoveryStrategy ws taskId = .ok .escalate) := by
  refine ⟨?_, ?_, ?_⟩
  · intro ws tid wid wf h1 h2 hlt
    have hnle : ¬ maxRetries ≤ retryCountOf wf tid := Nat.not_le.mpr hlt
    constructor
    · simp [determineRecoveryStrategy, h1, h2, hnle]
    · refine ⟨{ wf with retryCount := dinsert wf.retryCount tid (retryCountOf wf tid + 1) },
        ?_, ?_⟩
      · simp [applyRecoveryStrategy, h1, h2]
      · simp [retryCountOf, dlookup_dinsert_self]
  · intro ws tid wid wf h1 h2 hge
    constructor
    · simp [determineRecoveryStrategy, h1, h2, hge]
    · simp [applyRecoveryStrategy, h1, h2]
  · intro ws tid h
    simp [determineRecoveryStrategy, h]

/-- Witness for the amended C4 theorem at a concrete tracker state with the
counter at 0: the failure is retried and the counter becomes 1. -/
theorem c4_retry_counter_amended_witness :
    (dlookup wsZero.taskToWorkflow "t" = some "w" ∧
      dlookup wsZero.workflows "w" = some wfZero ∧
      retryCountOf wfZero "t" < maxRetries) ∧
    (determineRecoveryStrategy wsZero "t" = .ok .retry ∧
      ∃ wf', applyRecoveryStrategy wsZero "t" .retry =
          Except.ok { wsZero with workflows := dinsert wsZero.workflows "w" wf' } ∧
        retryCountOf wf' "t" = retryCountOf wfZero "t" + 1) :=
  ⟨⟨by decide, by decide, by decide⟩,
    c4_retry_counter_amended.1 wsZero "t" "w" wfZero (by decide) (by decide) (by decide)⟩

/-- C2: evaluation of the code at the failing input. In the registry state
regNoComplex no registered model covers the derived requirement
complex_reasoning, so select_model falls back to the configured default
"Claude-3.7-Sonnet" — a name that is not present in the catalog (the
registered names are claude-3-sonnet, claude-3-opus, claude-3-haiku, gpt-4,
gpt-4-turbo), contradicting the claim that the returned default is
registered. -/
theorem c2_default_not_in_catalog :
    findCandidateModels regNoComplex
        (determineRequiredCapabilities "x" ["complex reasoning"]) = [] ∧
    selectModel regNoComplex { taskType := "x", requirements := ["complex reasoning"] } =
      "Claude-3.7-Sonnet" ∧
    getModel regNoComplex "Claude-3.7-Sonnet" = none ∧
    (listModels regNoComplex).contains "Claude-3.7-Sonnet" = false := by
  decide

/-- C7 counterexample: a model registered with an empty info dict is
registered — getModel finds it and it appears in the catalog — yet an
explicit request for it is not honoured: the selector treats the falsy dict
as not found, runs the selection pipeline, and returns gpt-4 instead. -/
theorem c7_explicit_model_counterexample :
    getModel (registerModel orchestratorRegistry "empty-model" ModelInfo.emptyInfo)
        "empty-model" = some ModelInfo.emptyInfo ∧
    selectModel (registerModel orchestratorRegistry "empty-model" ModelInfo.emptyInfo)
        { taskType := "x", model := some "empty-model" } = "gpt-4" := by
  decide

/-- C7 (amended): an explicit model request for a name registered with a
non-empty (truthy) info record is returned verbatim, whatever the
capability situation, bypassing constraint filtering and ranking. -/
theorem c7_explicit_model_amended :
    ∀ (r : ModelRegistry) (task : TaskDesc) (name : String) (info : ModelInfo),
      task.model = some name →
      getModel r name = some info →
      info ≠ ModelInfo.emptyInfo →
      selectModel r task = name := by
  intro r task name info h1 h2 h3
  simp [selectModel, h1, truthyInfo, h2, h3]

/-- Witness for the amended C7 theorem: an explicit request for gpt-4 on the
Orchestrator registry — a model whose capability set does not matter here —
returns gpt-4. -/
theorem c7_explicit_model_amended_witness :
    (({ taskType := "x", model := some "gpt-4" } : TaskDesc).model = some "gpt-4" ∧
      getModel orchestratorRegistry "gpt-4" = some gpt4Info ∧
      gpt4Info ≠ ModelInfo.emptyInfo) ∧
    selectModel orchestratorRegistry { taskType := "x", model := some "gpt-4" } = "gpt-4" :=
  ⟨⟨rfl, by decide, by decide⟩,
    c7_explicit_model_amended orchestratorRegistry
      { taskType := "x", model := some "gpt-4" } "gpt-4" gpt4Info
      rfl (by decide) (by decide)⟩

end ROOcode
